import Mathlib

/-!
Verification of the secret-service core of keybase/go-keychain.

The development shallowly embeds, in Lean 4:
  * the Diffie-Hellman group and key agreement of
    secretservice/dh_ietf1024_sha256_aes128_cbc_pkcs7.go
    (diffieHellman, rfc2409SecondOakleyGroup,
    keygenDHIETF1024SHA256AES128CBCPKCS7, together with the SHA-256 and
    HKDF library primitives those functions call);
  * the prompt/completion state machine and the item operations of the
    secretservice D-Bus client (PromptAndWait, CreateItem, DeleteItem,
    Unlock, LockItems, GetAttributes, PromptDismissedError);
  * the PKCS#7 padding and AES-CBC envelope layer, whose implementation
    is absent from the provided sources (only its tests are present):
    these definitions are modelled from the specification.

Go conventions are embedded explicitly: a Go (value, error) return pair
becomes a Lean pair whose second component is an Option GoError, and the
pkg/errors Wrap function, which returns nil when asked to wrap a nil
error, is embedded as errorsWrap below.  Machine integers do not occur;
all arithmetic is on Nat (big.Int values are non-negative throughout the
source paths embedded here).
-/

/-- Errors as produced by the Go source: errors.New, errors.Wrap, and the
PromptDismissedError wrapper type of the secretservice package. -/
inductive GoError where
  | new (msg : String)
  | wrapped (msg : String) (cause : GoError)
  | promptDismissed (cause : GoError)
deriving DecidableEq

/-- Embedding of pkg/errors.Wrap: wrapping a nil error yields nil, wrapping a
non-nil error yields a wrapped error carrying the message. -/
def errorsWrap (e : Option GoError) (msg : String) : Option GoError :=
  match e with
  | none => none
  | some cause => some (GoError.wrapped msg cause)

/-- Embedding of errors.New. -/
def errorsNew (msg : String) : GoError := GoError.new msg

/-- Result of dbus.Store applied to the body of a Completed signal: either the
decoded (Dismissed, Paths) pair of PromptCompletedResult, or a decode error. -/
inductive StoreResult where
  | ok (dismissed : Bool) (paths : String)
  | fail (e : GoError)
deriving DecidableEq

/-- A D-Bus signal as delivered on the session signal channel: sender, source
object path, signal name, and its (already classified) body. -/
structure DBusSignal where
  sender : String
  path : String
  name : String
  body : StoreResult
deriving DecidableEq

/-- A signal together with its arrival delay, in time units (seconds), measured
from the start of the select iteration that receives it. -/
structure TimedSignal where
  delay : Nat
  signal : DBusSignal
deriving DecidableEq

/-- The signal name the prompt-wait loop matches on. -/
def promptCompletedName : String := "org.freedesktop.Secret.Prompt.Completed"

/-- The null-prompt sentinel object path. -/
def nullPrompt : String := "/"

/-- The prompt-wait timeout, in time units: 30 * time.Second. -/
def promptTimeout : Nat := 30

/-- The select loop of PromptAndWait, embedded over the queue of timed signals
the channel will deliver.  Each iteration re-arms time.After: a signal is
received when its delay is strictly below the timeout, otherwise the timeout
case fires.  A received signal whose name is not
org.freedesktop.Secret.Prompt.Completed is ignored and the loop continues; a
Completed signal whose body fails to decode yields a wrapped store error; a
decoded body returns PromptDismissedError when Dismissed is set and otherwise
returns the Paths payload.  The second component is the elapsed time at which
the loop returns. -/
def promptLoop : List TimedSignal → (Option String × Option GoError) × Nat
  | [] => ((none, some (errorsNew "prompt timed out")), promptTimeout)
  | ts :: rest =>
    if promptTimeout ≤ ts.delay then
      ((none, some (errorsNew "prompt timed out")), promptTimeout)
    else if ts.signal.name ≠ promptCompletedName then
      let r := promptLoop rest
      (r.1, ts.delay + r.2)
    else
      match ts.signal.body with
      | StoreResult.fail e =>
          ((none, errorsWrap (some e) "failed to unmarshal prompt result"), ts.delay)
      | StoreResult.ok dismissed paths =>
          if dismissed then
            ((none, some (GoError.promptDismissed (errorsNew "prompt dismissed"))), ts.delay)
          else
            ((some paths, none), ts.delay)

/-- PromptAndWait.  The null prompt returns immediately with (nil, nil).
Otherwise the org.freedesktop.Secret.Prompt.Prompt call is issued; its outcome
is the callErr parameter.  When that call fails, the source executes
return nil, errors.Wrap(err, "failed to prompt") where err is the (still nil)
named return value, so the wrap yields nil and the function returns success.
When the call succeeds the select loop runs on the signal queue. -/
def promptAndWait (prompt : String) (callErr : Option GoError)
    (signals : List TimedSignal) : Option String × Option GoError :=
  if prompt = nullPrompt then (none, none)
  else
    match callErr with
    | some _ => (none, errorsWrap none "failed to prompt")
    | none => (promptLoop signals).1

/-- Value stored in the org.freedesktop.Secret.Item.Attributes property, as
seen after the GetProperty call: either a string map (the Attributes type) or
a value of some other dynamic type, on which the Go type assertion fails. -/
inductive VariantValue where
  | attrs (a : List (String × String))
  | other (s : String)
deriving DecidableEq

/-- GetAttributes.  On GetProperty failure the error is wrapped and returned.
On success the source coerces the variant with a Go type assertion; when the
assertion fails it executes
return nil, errors.Wrap(err, "failed to coerce attributes variant") where err
is nil at that point, so the wrap yields nil and the failure is reported as
success with a nil attributes map. -/
def getAttributes (propResult : Except GoError VariantValue) :
    Option (List (String × String)) × Option GoError :=
  match propResult with
  | Except.error e => (none, errorsWrap (some e) "failed to get attributes for item")
  | Except.ok v =>
    match v with
    | VariantValue.attrs a => (some a, none)
    | VariantValue.other _ => (none, errorsWrap none "failed to coerce attributes variant")

/-- CreateItem: the synchronous CreateItem call yields (item, prompt) or an
error; on success the prompt handle is driven through PromptAndWait, whose
error (if any) is returned as is. -/
def createItem (callRes : Except GoError (String × String))
    (promptCallErr : Option GoError) (signals : List TimedSignal) :
    String × Option GoError :=
  match callRes with
  | Except.error e => ("", errorsWrap (some e) "failed to create item")
  | Except.ok (item, prompt) =>
    match (promptAndWait prompt promptCallErr signals).2 with
    | some e => ("", some e)
    | none => (item, none)

/-- DeleteItem: the synchronous Delete call yields a prompt handle or an
error; on success the handle is driven through PromptAndWait. -/
def deleteItem (callRes : Except GoError String)
    (promptCallErr : Option GoError) (signals : List TimedSignal) :
    Option GoError :=
  match callRes with
  | Except.error e => errorsWrap (some e) "failed to delete item"
  | Except.ok prompt =>
    match (promptAndWait prompt promptCallErr signals).2 with
    | some e => some e
    | none => none

/-- Unlock: the synchronous Unlock call yields (paths, prompt) or an error; on
success the handle is driven through PromptAndWait and a prompt failure is
wrapped. -/
def unlock (callRes : Except GoError (List String × String))
    (promptCallErr : Option GoError) (signals : List TimedSignal) :
    Option GoError :=
  match callRes with
  | Except.error e => errorsWrap (some e) "failed to unlock items"
  | Except.ok (_, prompt) =>
    match (promptAndWait prompt promptCallErr signals).2 with
    | some e => errorsWrap (some e) "failed to prompt"
    | none => none

/-- LockItems: the synchronous Lock call yields (paths, prompt) or an error;
on success the handle is driven through PromptAndWait and a prompt failure is
wrapped. -/
def lockItems (callRes : Except GoError (List String × String))
    (promptCallErr : Option GoError) (signals : List TimedSignal) :
    Option GoError :=
  match callRes with
  | Except.error e => errorsWrap (some e) "failed to lock items"
  | Except.ok (_, prompt) =>
    match (promptAndWait prompt promptCallErr signals).2 with
    | some e => errorsWrap (some e) "failed to prompt"
    | none => none

/-- A queue prefix every element of which is received in time but ignored by
the loop: delay strictly below the timeout and a non-matching signal name. -/
def ignoredTimely (sigs : List TimedSignal) : Bool :=
  sigs.all (fun ts => decide (ts.delay < promptTimeout) &&
    decide (ts.signal.name ≠ promptCompletedName))

/-- No matching notification is ever received: either a 30-unit gap occurs
first (the timeout fires), or the queue is exhausted, every delivered signal
having been a timely non-matching one. -/
def noTimelyMatch : List TimedSignal → Bool
  | [] => true
  | ts :: rest =>
    decide (promptTimeout ≤ ts.delay) ||
      (decide (ts.delay < promptTimeout) &&
        decide (ts.signal.name ≠ promptCompletedName) && noTimelyMatch rest)

/-- Total delay of a signal queue prefix. -/
def sumDelays (sigs : List TimedSignal) : Nat :=
  (sigs.map TimedSignal.delay).sum

/-- Word truncation to 32 bits, the implicit arithmetic of crypto/sha256. -/
def w32 (n : Nat) : Nat := n % 4294967296

/-- Right rotation of a 32-bit word. -/
def rotr32 (n x : Nat) : Nat := w32 ((x >>> n) ||| (x <<< (32 - n)))

/-- SHA-256 Ch function; complement taken against the 32-bit all-ones word. -/
def shaCh (x y z : Nat) : Nat := (x &&& y) ^^^ ((x ^^^ 4294967295) &&& z)

/-- SHA-256 Maj function. -/
def shaMaj (x y z : Nat) : Nat := (x &&& y) ^^^ (x &&& z) ^^^ (y &&& z)

/-- SHA-256 big Sigma0. -/
def bigSigma0 (x : Nat) : Nat := rotr32 2 x ^^^ rotr32 13 x ^^^ rotr32 22 x

/-- SHA-256 big Sigma1. -/
def bigSigma1 (x : Nat) : Nat := rotr32 6 x ^^^ rotr32 11 x ^^^ rotr32 25 x

/-- SHA-256 small sigma0. -/
def smallSigma0 (x : Nat) : Nat := rotr32 7 x ^^^ rotr32 18 x ^^^ (x >>> 3)

/-- SHA-256 small sigma1. -/
def smallSigma1 (x : Nat) : Nat := rotr32 17 x ^^^ rotr32 19 x ^^^ (x >>> 10)

/-- The 64 SHA-256 round constants. -/
def shaK : List Nat :=
  [1116352408, 1899447441, 3049323471, 3921009573, 961987163,
   1508970993, 2453635748, 2870763221, 3624381080, 310598401,
   607225278, 1426881987, 1925078388, 2162078206, 2614888103,
   3248222580, 3835390401, 4022224774, 264347078, 604807628,
   770255983, 1249150122, 1555081692, 1996064986, 2554220882,
   2821834349, 2952996808, 3210313671, 3336571891, 3584528711,
   113926993, 338241895, 666307205, 773529912, 1294757372,
   1396182291, 1695183700, 1986661051, 2177026350, 2456956037,
   2730485921, 2820302411, 3259730800, 3345764771, 3516065817,
   3600352804, 4094571909, 275423344, 430227734, 506948616,
   659060556, 883997877, 958139571, 1322822218, 1537002063,
   1747873779, 1955562222, 2024104815, 2227730452, 2361852424,
   2428436474, 2756734187, 3204031479, 3329325298]

/-- Big-endian packing of bytes into 32-bit words, four bytes per word. -/
def bytesToWordsBE : List Nat → List Nat
  | b0 :: b1 :: b3 :: b4 :: rest =>
    (b0 * 16777216 + b1 * 65536 + b3 * 256 + b4) :: bytesToWordsBE rest
  | _ => []

/-- Big-endian bytes of one 32-bit word. -/
def wordToBytesBE (w : Nat) : List Nat :=
  [w / 16777216 % 256, w / 65536 % 256, w / 256 % 256, w % 256]

/-- One message-schedule extension step, over the schedule kept in reverse
order: the head is the most recent word. -/
def extendStepRev (ws : List Nat) : List Nat :=
  w32 (smallSigma1 (ws.getD 1 0) + ws.getD 6 0 +
    smallSigma0 (ws.getD 14 0) + ws.getD 15 0) :: ws

/-- Iterate a word-list transformation n times. -/
def iterateN (f : List Nat → List Nat) : Nat → List Nat → List Nat
  | 0, x => x
  | n + 1, x => iterateN f n (f x)

/-- The 64-word message schedule of one 64-byte block. -/
def shaSchedule (block : List Nat) : List Nat :=
  (iterateN extendStepRev 48 (bytesToWordsBE block).reverse).reverse

/-- The eight working variables of the SHA-256 compression function. -/
structure SHAState where
  a : Nat
  b : Nat
  c : Nat
  d : Nat
  e : Nat
  f : Nat
  g : Nat
  h : Nat
deriving DecidableEq

/-- One SHA-256 compression round. -/
def shaRound (st : SHAState) (k w : Nat) : SHAState :=
  let t1 := w32 (st.h + bigSigma1 st.e + shaCh st.e st.f st.g + k + w)
  let t2 := w32 (bigSigma0 st.a + shaMaj st.a st.b st.c)
  ⟨w32 (t1 + t2), st.a, st.b, st.c, w32 (st.d + t1), st.e, st.f, st.g⟩

/-- Run the 64 rounds over the zipped (constant, schedule word) list. -/
def shaRounds : List (Nat × Nat) → SHAState → SHAState
  | [], st => st
  | kw :: rest, st => shaRounds rest (shaRound st kw.1 kw.2)

/-- Componentwise 32-bit addition of states. -/
def addStates (x y : SHAState) : SHAState :=
  ⟨w32 (x.a + y.a), w32 (x.b + y.b), w32 (x.c + y.c), w32 (x.d + y.d),
   w32 (x.e + y.e), w32 (x.f + y.f), w32 (x.g + y.g), w32 (x.h + y.h)⟩

/-- Compression of one 64-byte block into the running state. -/
def shaCompress (st : SHAState) (block : List Nat) : SHAState :=
  addStates st (shaRounds (shaK.zip (shaSchedule block)) st)

/-- Split a byte list into 64-byte blocks; the fuel argument (initially the
length) keeps the recursion structural. -/
def chunks64Aux : Nat → List Nat → List (List Nat)
  | 0, _ => []
  | _, [] => []
  | fuel + 1, l => l.take 64 :: chunks64Aux fuel (l.drop 64)

/-- Split a byte list into 64-byte blocks. -/
def chunks64 (l : List Nat) : List (List Nat) := chunks64Aux l.length l

/-- Fixed-width big-endian byte encoding of a natural number. -/
def toBytesFixedBE : Nat → Nat → List Nat
  | 0, _ => []
  | width + 1, n => toBytesFixedBE width (n / 256) ++ [n % 256]

/-- SHA-256 message padding: 0x80, zeros to 56 mod 64, then the 64-bit
big-endian bit length. -/
def shaPad (msg : List Nat) : List Nat :=
  msg ++ 128 :: List.replicate ((120 - (msg.length + 1) % 64) % 64) 0 ++
    toBytesFixedBE 8 (msg.length * 8)

/-- The SHA-256 initial hash value. -/
def shaInit : SHAState :=
  ⟨1779033703, 3144134277, 1013904242, 2773480762,
   1359893119, 2600822924, 528734635, 1541459225⟩

/-- Big-endian byte serialization of the final state. -/
def stateBytes (st : SHAState) : List Nat :=
  wordToBytesBE st.a ++ wordToBytesBE st.b ++ wordToBytesBE st.c ++
    wordToBytesBE st.d ++ wordToBytesBE st.e ++ wordToBytesBE st.f ++
    wordToBytesBE st.g ++ wordToBytesBE st.h

/-- SHA-256 of a byte string, as crypto/sha256 computes it. -/
def sha256 (msg : List Nat) : List Nat :=
  stateBytes ((chunks64 (shaPad msg)).foldl shaCompress shaInit)

/-- HMAC key preprocessing: hash keys longer than the 64-byte block, then
right-pad with zeros to the block size. -/
def hmacKeyBlock (key : List Nat) : List Nat :=
  let k := if 64 < key.length then sha256 key else key
  k ++ List.replicate (64 - k.length) 0

/-- HMAC-SHA256, as crypto/hmac computes it (0x5c outer pad, 0x36 inner). -/
def hmacSHA256 (key msg : List Nat) : List Nat :=
  let kb := hmacKeyBlock key
  sha256 ((kb.map (fun b => b ^^^ 92)) ++
    sha256 ((kb.map (fun b => b ^^^ 54)) ++ msg))

/-- HKDF expand stage: T(i) = HMAC(PRK, T(i-1) ++ info ++ [i]) for the given
number of blocks, starting from T(0) = empty and counter 1. -/
def hkdfExpandAux (prk info : List Nat) : Nat → List Nat → Nat → List Nat
  | 0, _, _ => []
  | blocks + 1, prev, i =>
    let t := hmacSHA256 prk (prev ++ info ++ [i % 256])
    t ++ hkdfExpandAux prk info blocks t (i + 1)

/-- HKDF with SHA-256 as golang.org/x/crypto/hkdf computes it: a nil salt is
replaced by a hash-length block of zeros, PRK = HMAC(salt, secret), and n
bytes are read from the concatenated expand blocks. -/
def hkdfSHA256 (ikm salt info : List Nat) (n : Nat) : List Nat :=
  let saltK := if salt.length = 0 then List.replicate 32 0 else salt
  let prk := hmacSHA256 saltK ikm
  (hkdfExpandAux prk info ((n + 31) / 32) [] 1).take n

/-- Minimal big-endian byte encoding of a natural number, as big.Int.Bytes:
zero encodes to the empty slice.  The fuel argument (initially the number
itself, always at least its digit count) keeps the recursion structural. -/
def natToBytesBEAux : Nat → Nat → List Nat → List Nat
  | 0, _, acc => acc
  | fuel + 1, n, acc =>
    if n = 0 then acc else natToBytesBEAux fuel (n / 256) (n % 256 :: acc)

/-- Minimal big-endian byte encoding of a natural number. -/
def natToBytesBE (n : Nat) : List Nat := natToBytesBEAux n n []

/-- The dhGroup struct: generator, prime modulus, and modulus minus one. -/
structure dhGroup where
  g : Nat
  p : Nat
  pMinus1 : Nat
deriving DecidableEq

/-- The RFC 2409 Second Oakley Group 1024-bit prime. -/
def oakleyPrime : Nat :=
  0xFFFFFFFFFFFFFFFFC90FDAA22168C234C4C6628B80DC1CD129024E088A67CC74020BBEA63B139B22514A08798E3404DDEF9519B3CD3A431B302B0A6DF25F14374FE1356D6D51C245E485B576625E7EC6F44C42E9A637ED6B0BFF5CB6F406B7EDEE386BFB5A899FA5AE9F24117C4B1FE649286651ECE65381FFFFFFFFFFFFFFFF

/-- rfc2409SecondOakleyGroup: generator 2, the Oakley prime, and p - 1. -/
def rfc2409SecondOakleyGroup : dhGroup :=
  { g := 2, p := oakleyPrime, pMinus1 := oakleyPrime - 1 }

/-- diffieHellman: rejects theirPublic when theirPublic.Cmp(bigOne) <= 0 or
theirPublic.Cmp(group.pMinus1) >= 0, otherwise returns
theirPublic^myPrivate mod p. -/
def diffieHellman (group : dhGroup) (theirPublic myPrivate : Nat) :
    Except GoError Nat :=
  if theirPublic ≤ 1 ∨ group.pMinus1 ≤ theirPublic then
    Except.error (errorsNew "ssh: DH parameter out of bounds")
  else
    Except.ok (theirPublic ^ myPrivate % group.p)

/-- keygenDHIETF1024SHA256AES128CBCPKCS7: computes the shared secret, takes
its big-endian bytes as the HKDF input keying material with nil salt and nil
info under SHA-256, and reads 128 bytes of output key material into aesKey
(io.ReadFull on the hkdf reader cannot fail for a request of 128 bytes, far
below the 255-block expand limit). -/
def keygenDHIETF1024SHA256AES128CBCPKCS7 (group : dhGroup)
    (theirPublic myPrivate : Nat) : Except GoError (List Nat) :=
  match diffieHellman group theirPublic myPrivate with
  | Except.error e => Except.error e
  | Except.ok sharedSecret =>
    Except.ok (hkdfSHA256 (natToBytesBE sharedSecret) [] [] 128)

/-- Modelled from the spec: NewKeypair is absent from src (the DH source file
is cut short; only TestNewKeypair and TestKeygen reference it).  Per spec
section 4.1 the private value is a fresh cryptographically random integer and
the public value is generator^private mod modulus; the random draw is passed
in as the priv parameter. -/
def generateKeyPair (group : dhGroup) (priv : Nat) : Nat × Nat :=
  (priv, group.g ^ priv % group.p)

/-- Modelled from the spec: padPKCS7 is absent from src (only TestPKCS7 and
the cipher layer reference it).  Per spec section 4.3, PKCS#7 padding appends
n copies of the byte n, where n is the distance to the next block boundary; a
full block of padding is appended when the length is already a multiple of
the block size. -/
def padPKCS7 (d : List Nat) (blockSize : Nat) : List Nat :=
  d ++ List.replicate (blockSize - d.length % blockSize)
    (blockSize - d.length % blockSize)

/-- Check of the trailing padding run: the final-byte value n must be covered
by the buffer and the last n bytes must all equal n. -/
def validPadRun (d : List Nat) (n : Nat) : Bool :=
  decide (n ≤ d.length) && (d.drop (d.length - n)).all (fun b => b == n)

/-- Modelled from the spec: unpadPKCS7 is absent from src (only TestPKCS7 and
the cipher layer reference it).  Per spec section 4.3, unpadding fails with a
PaddingError on an empty buffer, on a length that is not a multiple of the
block size, and when the last n bytes are not all equal to n for the n
encoded in the final byte; otherwise it strips the final n bytes. -/
def unpadPKCS7 (d : List Nat) (blockSize : Nat) : Except GoError (List Nat) :=
  if d.length = 0 then
    Except.error (errorsNew "attempt to unpad empty buffer")
  else if d.length % blockSize ≠ 0 then
    Except.error (errorsNew "buffer length is not a multiple of the block size")
  else if validPadRun d (d.getLastD 0) then
    Except.ok (d.take (d.length - d.getLastD 0))
  else
    Except.error (errorsNew "invalid padding run")

/-- The AES block size. -/
def aesBlockSize : Nat := 16

/-- Bytewise xor of two blocks. -/
def xorBytes (a b : List Nat) : List Nat := List.zipWith Nat.xor a b

/-- Split a byte list into 16-byte blocks; the fuel argument (initially the
length) keeps the recursion structural. -/
def chunks16Aux : Nat → List Nat → List (List Nat)
  | 0, _ => []
  | _, [] => []
  | fuel + 1, l => l.take 16 :: chunks16Aux fuel (l.drop 16)

/-- Split a byte list into 16-byte blocks. -/
def chunks16 (l : List Nat) : List (List Nat) := chunks16Aux l.length l

/-- CBC chaining for encryption over a block encryption function blockEnc:
each plaintext block is xored with the previous ciphertext block (initially
the IV) before the block transformation. -/
def cbcEncryptBlocks (blockEnc : List Nat → List Nat) :
    List Nat → List (List Nat) → List (List Nat)
  | _, [] => []
  | prev, b :: bs =>
    let c := blockEnc (xorBytes prev b)
    c :: cbcEncryptBlocks blockEnc c bs

/-- CBC chaining for decryption over a block decryption function blockDec. -/
def cbcDecryptBlocks (blockDec : List Nat → List Nat) :
    List Nat → List (List Nat) → List (List Nat)
  | _, [] => []
  | prev, c :: cs => xorBytes prev (blockDec c) :: cbcDecryptBlocks blockDec c cs

/-- Modelled from the spec: unauthenticatedAESCBCEncrypt is absent from src
(only TestEncryption and TestEncryptionRng call it; the
UnauthenticatedAESEncrypt stub in the DH source file returns nil, nil).  Per
spec section 4.3 the plaintext is PKCS#7-padded to the 16-byte block size and
encrypted in CBC mode under a fresh random 16-byte IV; the random IV is
passed in as a parameter and the AES-128 block transformation under the fixed
16-byte key is passed in as the abstract block permutation blockEnc. -/
def unauthenticatedAESCBCEncrypt (blockEnc : List Nat → List Nat)
    (iv plaintext : List Nat) : List Nat × List Nat :=
  (iv, (cbcEncryptBlocks blockEnc iv (chunks16 (padPKCS7 plaintext aesBlockSize))).flatten)

/-- Modelled from the spec: unauthenticatedAESCBCDecrypt is absent from src
(only TestEncryption calls it).  Per spec section 4.3 it CBC-decrypts the
ciphertext under the IV with the inverse block transformation blockDec and
removes the PKCS#7 padding. -/
def unauthenticatedAESCBCDecrypt (blockDec : List Nat → List Nat)
    (iv ciphertext : List Nat) : Except GoError (List Nat) :=
  unpadPKCS7 ((cbcDecryptBlocks blockDec iv (chunks16 ciphertext)).flatten) aesBlockSize

theorem promptLoop_ignored_cons (ts : TimedSignal) (l : List TimedSignal)
    (hd : ts.delay < promptTimeout) (hn : ts.signal.name ≠ promptCompletedName) :
    promptLoop (ts :: l) = ((promptLoop l).1, ts.delay + (promptLoop l).2) := by
  simp [promptLoop, Nat.not_le.mpr hd, hn]

theorem promptLoop_append_ignored :
    ∀ (pre l : List TimedSignal), ignoredTimely pre = true →
      promptLoop (pre ++ l) = ((promptLoop l).1, sumDelays pre + (promptLoop l).2) := by
  intro pre
  induction pre with
  | nil => intro l _; simp [sumDelays]
  | cons ts pre ih =>
    intro l h
    simp [ignoredTimely] at h
    obtain ⟨⟨hd, hn⟩, hrest⟩ := h
    have hrest' : ignoredTimely pre = true := by
      simp [ignoredTimely]
      exact hrest
    rw [List.cons_append, promptLoop_ignored_cons ts (pre ++ l) hd hn, ih l hrest']
    simp [sumDelays]
    omega

theorem promptLoop_noTimelyMatch :
    ∀ sigs, noTimelyMatch sigs = true →
      (promptLoop sigs).1 = (none, some (errorsNew "prompt timed out")) := by
  intro sigs
  induction sigs with
  | nil => intro _; rfl
  | cons ts rest ih =>
    intro h
    by_cases hd : promptTimeout ≤ ts.delay
    · simp [promptLoop, hd]
    · have hd' : ts.delay < promptTimeout := Nat.lt_of_not_le hd
      simp [noTimelyMatch, hd, hd'] at h
      obtain ⟨hn, hrest⟩ := h
      rw [promptLoop_ignored_cons ts rest hd' hn]
      exact ih hrest

/-- C5: for a non-null prompt handle, the prompt-wait fails with
PromptDismissedError when the first timely Completed notification carries the
dismissed flag, returns the Paths payload of the notification when it arrives
without the dismissed flag, and fails with the timeout error, realized in the
source as errors.New applied to the string prompt timed out, when no Completed
notification is received within a 30-unit window. -/
theorem promptAndWait_outcomes (prompt : String) (hp : prompt ≠ nullPrompt) :
    (∀ (pre : List TimedSignal) (ts : TimedSignal) (rest : List TimedSignal)
        (paths : String), ignoredTimely pre = true → ts.delay < promptTimeout →
        ts.signal.name = promptCompletedName →
        ts.signal.body = StoreResult.ok true paths →
        promptAndWait prompt none (pre ++ ts :: rest) =
          (none, some (GoError.promptDismissed (errorsNew "prompt dismissed")))) ∧
    (∀ (pre : List TimedSignal) (ts : TimedSignal) (rest : List TimedSignal)
        (paths : String), ignoredTimely pre = true → ts.delay < promptTimeout →
        ts.signal.name = promptCompletedName →
        ts.signal.body = StoreResult.ok false paths →
        promptAndWait prompt none (pre ++ ts :: rest) = (some paths, none)) ∧
    (∀ sigs : List TimedSignal, noTimelyMatch sigs = true →
        promptAndWait prompt none sigs = (none, some (errorsNew "prompt timed out"))) := by
  have hpw : ∀ sigs, promptAndWait prompt none sigs = (promptLoop sigs).1 := by
    intro sigs
    simp [promptAndWait, hp]
  refine ⟨?_, ?_, ?_⟩
  · intro pre ts rest paths hpre hd hn hb
    rw [hpw, promptLoop_append_ignored pre _ hpre]
    simp [promptLoop, Nat.not_le.mpr hd, hn, hb]
  · intro pre ts rest paths hpre hd hn hb
    rw [hpw, promptLoop_append_ignored pre _ hpre]
    simp [promptLoop, Nat.not_le.mpr hd, hn, hb]
  · intro sigs hs
    rw [hpw]
    exact promptLoop_noTimelyMatch sigs hs

/-- Witness for C5 at a concrete run: an ignored lock signal after 5 units,
then a dismissed completion after 3 units. -/
theorem promptAndWait_outcomes_witness :
    ("/org/freedesktop/secrets/prompt/p7" ≠ nullPrompt ∧
      ignoredTimely [⟨5, ⟨"s", "/c", "org.freedesktop.Secret.Collection.ItemChanged",
        StoreResult.fail (errorsNew "x")⟩⟩] = true) ∧
    promptAndWait "/org/freedesktop/secrets/prompt/p7" none
      ([⟨5, ⟨"s", "/c", "org.freedesktop.Secret.Collection.ItemChanged",
          StoreResult.fail (errorsNew "x")⟩⟩] ++
        ⟨3, ⟨"s", "/org/freedesktop/secrets/prompt/p7", promptCompletedName,
          StoreResult.ok true "/"⟩⟩ :: []) =
      (none, some (GoError.promptDismissed (errorsNew "prompt dismissed"))) :=
  ⟨⟨by decide, by decide⟩,
    (promptAndWait_outcomes "/org/freedesktop/secrets/prompt/p7" (by decide)).1
      [⟨5, ⟨"s", "/c", "org.freedesktop.Secret.Collection.ItemChanged",
        StoreResult.fail (errorsNew "x")⟩⟩]
      ⟨3, ⟨"s", "/org/freedesktop/secrets/prompt/p7", promptCompletedName,
        StoreResult.ok true "/"⟩⟩ [] "/" (by decide) (by decide) rfl rfl⟩

/-- Counterexample to C6: a Completed notification whose source object path
differs from the prompt handle the waiter passed is not ignored — it resolves
the wait with its payload, because the loop filters on the signal name only
and never consults signal.Path. -/
theorem promptAndWait_foreign_handle_resolves :
    "/org/freedesktop/secrets/prompt/other" ≠ "/org/freedesktop/secrets/prompt/mine" ∧
    promptAndWait "/org/freedesktop/secrets/prompt/mine" none
      [⟨0, ⟨"s", "/org/freedesktop/secrets/prompt/other", promptCompletedName,
        StoreResult.ok false "/unlocked"⟩⟩] =
      (some "/unlocked", none) := by
  constructor
  · decide
  · rfl

/-- C6 amended: the wait is correlated by signal name only.  The outcome of
the loop is invariant under changing the source object path of any delivered
signal, and a received signal is ignored exactly when its name differs from
the Completed signal name; a Completed notification for any prompt handle can
resolve the wait. -/
theorem promptAndWait_matches_by_name_only (prompt : String)
    (hp : prompt ≠ nullPrompt) :
    (∀ (ts : TimedSignal) (rest : List TimedSignal) (q : String),
      promptAndWait prompt none
          ({ delay := ts.delay, signal := { ts.signal with path := q } } :: rest) =
        promptAndWait prompt none (ts :: rest)) ∧
    (∀ (ts : TimedSignal) (rest : List TimedSignal),
      ts.delay < promptTimeout → ts.signal.name ≠ promptCompletedName →
      promptAndWait prompt none (ts :: rest) = promptAndWait prompt none rest) := by
  have hpw : ∀ sigs, promptAndWait prompt none sigs = (promptLoop sigs).1 := by
    intro sigs
    simp [promptAndWait, hp]
  constructor
  · intro ts rest q
    rw [hpw, hpw]
    rfl
  · intro ts rest hd hn
    rw [hpw, hpw, promptLoop_ignored_cons ts rest hd hn]

/-- Witness for the amended C6 at a concrete run: changing the path of a
delivered dismissal leaves the outcome unchanged, and a non-Completed signal
is skipped. -/
theorem promptAndWait_matches_by_name_only_witness :
    ("/p" ≠ nullPrompt ∧ (3 : Nat) < promptTimeout ∧
      "org.freedesktop.DBus.NameAcquired" ≠ promptCompletedName) ∧
    promptAndWait "/p" none
        ((⟨2, ⟨"s", "/q", promptCompletedName, StoreResult.ok true "/x"⟩⟩ : TimedSignal) :: []) =
      promptAndWait "/p" none
        [⟨2, ⟨"s", "/original", promptCompletedName, StoreResult.ok true "/x"⟩⟩] ∧
    promptAndWait "/p" none
        (⟨3, ⟨"s", "/b", "org.freedesktop.DBus.NameAcquired", StoreResult.fail (errorsNew "y")⟩⟩ :: []) =
      promptAndWait "/p" none [] :=
  ⟨⟨by decide, by decide, by decide⟩,
    (promptAndWait_matches_by_name_only "/p" (by decide)).1
      ⟨2, ⟨"s", "/original", promptCompletedName, StoreResult.ok true "/x"⟩⟩ [] "/q",
    (promptAndWait_matches_by_name_only "/p" (by decide)).2
      ⟨3, ⟨"s", "/b", "org.freedesktop.DBus.NameAcquired", StoreResult.fail (errorsNew "y")⟩⟩
      [] (by decide) (by decide)⟩

/-- C7: the code violates the claim that every failure is surfaced as a
non-nil error.  When the synchronous Prompt call fails, PromptAndWait
executes errors.Wrap on the still-nil named return err instead of call.Err,
and errors.Wrap of nil is nil, so it returns success; GetAttributes does the
same on a failed attributes coercion. -/
theorem failures_swallowed_by_nil_wrap :
    promptAndWait "/org/freedesktop/secrets/prompt/u0"
        (some (errorsNew "disconnected")) [] = (none, none) ∧
    getAttributes (Except.ok (VariantValue.other "not a string map")) = (none, none) := by
  constructor
  · rfl
  · rfl

/-- C10: the timeout window is re-armed on every loop iteration.  Over any
prefix of timely ignored notifications the loop times out at the sum of their
inter-arrival delays plus 30, that is 30 units after the most recently
ignored notification; a stream of n ignored notifications at period d pushes
the timeout to n * d + 30, unboundedly late. -/
theorem promptLoop_timeout_rearmed :
    (∀ pre : List TimedSignal, ignoredTimely pre = true →
      promptLoop pre =
        ((none, some (errorsNew "prompt timed out")), sumDelays pre + promptTimeout)) ∧
    (∀ (n d : Nat) (sig : DBusSignal), d < promptTimeout →
      sig.name ≠ promptCompletedName →
      promptLoop (List.replicate n ⟨d, sig⟩) =
        ((none, some (errorsNew "prompt timed out")), n * d + promptTimeout)) := by
  have key : ∀ pre : List TimedSignal, ignoredTimely pre = true →
      promptLoop pre =
        ((none, some (errorsNew "prompt timed out")), sumDelays pre + promptTimeout) := by
    intro pre h
    have := promptLoop_append_ignored pre [] h
    rw [List.append_nil] at this
    rw [this]
    rfl
  refine ⟨key, ?_⟩
  intro n d sig hd hn
  have hig : ignoredTimely (List.replicate n ⟨d, sig⟩) = true := by
    simp [ignoredTimely, List.all_eq_true]
    exact Or.inr ⟨hd, hn⟩
  rw [key _ hig]
  have hsum : sumDelays (List.replicate n (⟨d, sig⟩ : TimedSignal)) = n * d := by
    simp [sumDelays, List.map_replicate, List.sum_replicate, smul_eq_mul]
  rw [hsum]

/-- Witness for C10 at a concrete run: three ignored signals 20 units apart
postpone the timeout to 90 units, far past the 30-unit mark. -/
theorem promptLoop_timeout_rearmed_witness :
    ((20 : Nat) < promptTimeout ∧
      "org.freedesktop.DBus.NameAcquired" ≠ promptCompletedName) ∧
    promptLoop (List.replicate 3
        ⟨20, ⟨"s", "/b", "org.freedesktop.DBus.NameAcquired", StoreResult.fail (errorsNew "y")⟩⟩) =
      ((none, some (errorsNew "prompt timed out")), 90) :=
  ⟨⟨by decide, by decide⟩, by
    have := promptLoop_timeout_rearmed.2 3 20
      ⟨"s", "/b", "org.freedesktop.DBus.NameAcquired", StoreResult.fail (errorsNew "y")⟩
      (by decide) (by decide)
    simpa using this⟩

/-- C9: each of CreateItem, DeleteItem, Unlock and LockItems drives the prompt
handle returned by its synchronous request through PromptAndWait before
returning: the null-prompt sentinel resolves immediately with success, a
failed synchronous request is an error, the operation succeeds exactly when
the prompt-wait returns a nil error, and a non-nil prompt-wait error is
propagated (wrapped by Unlock and LockItems). -/
theorem item_ops_drive_prompt (promptCallErr : Option GoError)
    (signals : List TimedSignal) :
    (∀ ps : List TimedSignal, promptAndWait nullPrompt promptCallErr ps = (none, none)) ∧
    ((∀ e, createItem (Except.error e) promptCallErr signals =
        ("", some (GoError.wrapped "failed to create item" e))) ∧
      (∀ item prompt, (promptAndWait prompt promptCallErr signals).2 = none →
        createItem (Except.ok (item, prompt)) promptCallErr signals = (item, none)) ∧
      (∀ item prompt e, (promptAndWait prompt promptCallErr signals).2 = some e →
        createItem (Except.ok (item, prompt)) promptCallErr signals = ("", some e))) ∧
    ((∀ e, deleteItem (Except.error e) promptCallErr signals =
        some (GoError.wrapped "failed to delete item" e)) ∧
      (∀ prompt, (promptAndWait prompt promptCallErr signals).2 = none →
        deleteItem (Except.ok prompt) promptCallErr signals = none) ∧
      (∀ prompt e, (promptAndWait prompt promptCallErr signals).2 = some e →
        deleteItem (Except.ok prompt) promptCallErr signals = some e)) ∧
    ((∀ e, unlock (Except.error e) promptCallErr signals =
        some (GoError.wrapped "failed to unlock items" e)) ∧
      (∀ paths prompt, (promptAndWait prompt promptCallErr signals).2 = none →
        unlock (Except.ok (paths, prompt)) promptCallErr signals = none) ∧
      (∀ paths prompt e, (promptAndWait prompt promptCallErr signals).2 = some e →
        unlock (Except.ok (paths, prompt)) promptCallErr signals =
          some (GoError.wrapped "failed to prompt" e))) ∧
    ((∀ e, lockItems (Except.error e) promptCallErr signals =
        some (GoError.wrapped "failed to lock items" e)) ∧
      (∀ paths prompt, (promptAndWait prompt promptCallErr signals).2 = none →
        lockItems (Except.ok (paths, prompt)) promptCallErr signals = none) ∧
      (∀ paths prompt e, (promptAndWait prompt promptCallErr signals).2 = some e →
        lockItems (Except.ok (paths, prompt)) promptCallErr signals =
          some (GoError.wrapped "failed to prompt" e))) := by
  refine ⟨?_, ⟨?_, ?_, ?_⟩, ⟨?_, ?_, ?_⟩, ⟨?_, ?_, ?_⟩, ⟨?_, ?_, ?_⟩⟩
  · intro ps
    simp [promptAndWait, nullPrompt]
  · intro e
    rfl
  · intro item prompt h
    simp [createItem, h]
  · intro item prompt e h
    simp [createItem, h]
  · intro e
    rfl
  · intro prompt h
    simp [deleteItem, h]
  · intro prompt e h
    simp [deleteItem, h]
  · intro e
    rfl
  · intro paths prompt h
    simp [unlock, h]
  · intro paths prompt e h
    simp [unlock, h, errorsWrap]
  · intro e
    rfl
  · intro paths prompt h
    simp [lockItems, h]
  · intro paths prompt e h
    simp [lockItems, h, errorsWrap]

/-- Witness for C9 at concrete inputs: a null-prompt create succeeds at once,
and a delete whose prompt-wait is dismissed reports that error. -/
theorem item_ops_drive_prompt_witness :
    ((promptAndWait nullPrompt none []).2 = none ∧
      (promptAndWait "/p" none
          [⟨1, ⟨"s", "/p", promptCompletedName, StoreResult.ok true "/"⟩⟩]).2 =
        some (GoError.promptDismissed (errorsNew "prompt dismissed"))) ∧
    createItem (Except.ok ("/item7", nullPrompt)) none [] = ("/item7", none) ∧
    deleteItem (Except.ok "/p") none
        [⟨1, ⟨"s", "/p", promptCompletedName, StoreResult.ok true "/"⟩⟩] =
      some (GoError.promptDismissed (errorsNew "prompt dismissed")) :=
  ⟨⟨rfl, rfl⟩,
    (item_ops_drive_prompt none []).2.1.2.1 "/item7" nullPrompt rfl,
    (item_ops_drive_prompt none
        [⟨1, ⟨"s", "/p", promptCompletedName, StoreResult.ok true "/"⟩⟩]).2.2.1.2.2
      "/p" (GoError.promptDismissed (errorsNew "prompt dismissed")) rfl⟩

theorem diffieHellman_ok (group : dhGroup) (pub priv : Nat)
    (h1 : 1 < pub) (h2 : pub < group.pMinus1) :
    diffieHellman group pub priv = Except.ok (pub ^ priv % group.p) := by
  unfold diffieHellman
  rw [if_neg]
  omega

theorem sha256_length (msg : List Nat) : (sha256 msg).length = 32 := by
  simp [sha256, stateBytes, wordToBytesBE]

theorem hmacSHA256_length (key msg : List Nat) : (hmacSHA256 key msg).length = 32 :=
  sha256_length _

theorem hkdfExpandAux_length (prk info : List Nat) :
    ∀ (blocks : Nat) (prev : List Nat) (i : Nat),
      (hkdfExpandAux prk info blocks prev i).length = 32 * blocks := by
  intro blocks
  induction blocks with
  | zero => intro prev i; rfl
  | succ n ih =>
    intro prev i
    simp [hkdfExpandAux, hmacSHA256_length, ih]
    omega

theorem hkdfSHA256_length (ikm salt info : List Nat) (n : Nat) :
    (hkdfSHA256 ikm salt info n).length = min n (32 * ((n + 31) / 32)) := by
  simp [hkdfSHA256, hkdfExpandAux_length]

/-- C4: diffieHellman fails with the out-of-range error exactly when the peer
public value is at most 1 or at least modulus minus 1 (OutOfRangeError is
realized in the source as errors.New applied to the string
ssh: DH parameter out of bounds), and for every public value strictly
between 1 and modulus minus 1 it returns peerPublic^ownPrivate mod modulus. -/
theorem diffieHellman_range_check (pub priv : Nat) :
    (diffieHellman rfc2409SecondOakleyGroup pub priv =
        Except.error (errorsNew "ssh: DH parameter out of bounds") ↔
      pub ≤ 1 ∨ oakleyPrime - 1 ≤ pub) ∧
    (1 < pub → pub < oakleyPrime - 1 →
      diffieHellman rfc2409SecondOakleyGroup pub priv =
        Except.ok (pub ^ priv % oakleyPrime)) := by
  have hpm : rfc2409SecondOakleyGroup.pMinus1 = oakleyPrime - 1 := rfl
  constructor
  · constructor
    · intro h
      by_contra hc
      push_neg at hc
      rw [diffieHellman_ok rfc2409SecondOakleyGroup pub priv hc.1 (by omega)] at h
      exact absurd h (by simp)
    · intro h
      unfold diffieHellman
      rw [if_pos]
      omega
  · intro h1 h2
    exact diffieHellman_ok rfc2409SecondOakleyGroup pub priv h1 (by omega)

/-- Witness for C4 at concrete inputs: public value 1 is rejected, public
value 4 succeeds with the modular exponentiation result. -/
theorem diffieHellman_range_check_witness :
    (1 ≤ 1 ∧ 1 < 4 ∧ 4 < oakleyPrime - 1) ∧
    diffieHellman rfc2409SecondOakleyGroup 1 7 =
      Except.error (errorsNew "ssh: DH parameter out of bounds") ∧
    diffieHellman rfc2409SecondOakleyGroup 4 7 = Except.ok (4 ^ 7 % oakleyPrime) :=
  ⟨⟨by decide, by decide, by decide⟩,
    (diffieHellman_range_check 1 7).1.mpr (Or.inl (by decide)),
    (diffieHellman_range_check 4 7).2 (by decide) (by decide)⟩

/-- C1: for two keypairs whose public values pass the DH range check, the two
shared-secret computations agree, and consequently the two peers feed the
same input keying material to the key derivation and obtain identical key
bytes. -/
theorem dh_shared_secret_symmetric (a b : Nat)
    (ha1 : 1 < (generateKeyPair rfc2409SecondOakleyGroup a).2)
    (ha2 : (generateKeyPair rfc2409SecondOakleyGroup a).2 < oakleyPrime - 1)
    (hb1 : 1 < (generateKeyPair rfc2409SecondOakleyGroup b).2)
    (hb2 : (generateKeyPair rfc2409SecondOakleyGroup b).2 < oakleyPrime - 1) :
    diffieHellman rfc2409SecondOakleyGroup
        (generateKeyPair rfc2409SecondOakleyGroup b).2 a =
      diffieHellman rfc2409SecondOakleyGroup
        (generateKeyPair rfc2409SecondOakleyGroup a).2 b ∧
    keygenDHIETF1024SHA256AES128CBCPKCS7 rfc2409SecondOakleyGroup
        (generateKeyPair rfc2409SecondOakleyGroup b).2 a =
      keygenDHIETF1024SHA256AES128CBCPKCS7 rfc2409SecondOakleyGroup
        (generateKeyPair rfc2409SecondOakleyGroup a).2 b := by
  have hpub : ∀ x, (generateKeyPair rfc2409SecondOakleyGroup x).2 =
      2 ^ x % oakleyPrime := fun x => rfl
  have hmod : ∀ x y : Nat,
      (2 ^ x % oakleyPrime) ^ y % oakleyPrime = 2 ^ (x * y) % oakleyPrime := by
    intro x y
    rw [← Nat.pow_mod, ← pow_mul]
  have hdh : diffieHellman rfc2409SecondOakleyGroup
      (generateKeyPair rfc2409SecondOakleyGroup b).2 a =
    diffieHellman rfc2409SecondOakleyGroup
      (generateKeyPair rfc2409SecondOakleyGroup a).2 b := by
    rw [diffieHellman_ok _ _ _ hb1 (by rw [hpub] at hb2 ⊢; simpa using hb2),
      diffieHellman_ok _ _ _ ha1 (by rw [hpub] at ha2 ⊢; simpa using ha2)]
    rw [hpub, hpub]
    show Except.ok ((2 ^ b % oakleyPrime) ^ a % oakleyPrime) =
      Except.ok ((2 ^ a % oakleyPrime) ^ b % oakleyPrime)
    rw [hmod, hmod, Nat.mul_comm]
  refine ⟨hdh, ?_⟩
  unfold keygenDHIETF1024SHA256AES128CBCPKCS7
  rw [hdh]

/-- Witness for C1 at concrete private exponents 1 and 2: the public values 2
and 4 both pass the range check and the two key computations agree. -/
theorem dh_shared_secret_symmetric_witness :
    (1 < (generateKeyPair rfc2409SecondOakleyGroup 1).2 ∧
      (generateKeyPair rfc2409SecondOakleyGroup 1).2 < oakleyPrime - 1 ∧
      1 < (generateKeyPair rfc2409SecondOakleyGroup 2).2 ∧
      (generateKeyPair rfc2409SecondOakleyGroup 2).2 < oakleyPrime - 1) ∧
    keygenDHIETF1024SHA256AES128CBCPKCS7 rfc2409SecondOakleyGroup
        (generateKeyPair rfc2409SecondOakleyGroup 2).2 1 =
      keygenDHIETF1024SHA256AES128CBCPKCS7 rfc2409SecondOakleyGroup
        (generateKeyPair rfc2409SecondOakleyGroup 1).2 2 :=
  ⟨⟨by decide, by decide, by decide, by decide⟩,
    (dh_shared_secret_symmetric 1 2 (by decide) (by decide) (by decide) (by decide)).2⟩

/-- C2: the code contradicts the claim that exactly 16 bytes of output key
material are extracted: at the valid input theirPublic = 2, myPrivate = 1 the
key generation succeeds and returns 128 bytes of HKDF-SHA256 output (the
source allocates aesKey as a 128-byte buffer), not 16. -/
theorem keygen_returns_128_bytes :
    ∃ key, keygenDHIETF1024SHA256AES128CBCPKCS7 rfc2409SecondOakleyGroup 2 1 =
        Except.ok key ∧ key.length = 128 ∧ key.length ≠ 16 := by
  refine ⟨hkdfSHA256 (natToBytesBE (2 ^ 1 % oakleyPrime)) [] [] 128, ?_, ?_, ?_⟩
  · unfold keygenDHIETF1024SHA256AES128CBCPKCS7
    rw [diffieHellman_ok rfc2409SecondOakleyGroup 2 1 (by decide) (by decide)]
    rfl
  · rw [hkdfSHA256_length]
    rfl
  · rw [hkdfSHA256_length]
    decide

theorem validPadRun_iff (d : List Nat) (n : Nat) :
    validPadRun d n = true ↔
      n ≤ d.length ∧ d.drop (d.length - n) = List.replicate n n := by
  unfold validPadRun
  rw [Bool.and_eq_true, decide_eq_true_iff, List.all_eq_true]
  constructor
  · rintro ⟨hle, hall⟩
    refine ⟨hle, List.eq_replicate_iff.mpr ⟨?_, ?_⟩⟩
    · simp
      omega
    · intro b hb
      have := hall b hb
      rw [Nat.beq_eq_true_eq] at this
      exact this
  · rintro ⟨hle, hrep⟩
    refine ⟨hle, ?_⟩
    intro b hb
    rw [hrep] at hb
    rw [Nat.beq_eq_true_eq]
    exact List.eq_of_mem_replicate hb

/-- C8: (spec-modelled) unpadPKCS7 fails with a PaddingError exactly when the
buffer is empty, its length is not a multiple of the block size, or the last
n bytes are not all equal to n for the n encoded in the final byte; on every
other input it strips the final n bytes. -/
theorem unpadPKCS7_characterization (d : List Nat) (blockSize : Nat) :
    ((∃ e, unpadPKCS7 d blockSize = Except.error e) ↔
      (d.length = 0 ∨ d.length % blockSize ≠ 0 ∨
        ¬(d.getLastD 0 ≤ d.length ∧
          d.drop (d.length - d.getLastD 0) =
            List.replicate (d.getLastD 0) (d.getLastD 0)))) ∧
    (d.length ≠ 0 → d.length % blockSize = 0 → d.getLastD 0 ≤ d.length →
      d.drop (d.length - d.getLastD 0) =
        List.replicate (d.getLastD 0) (d.getLastD 0) →
      unpadPKCS7 d blockSize = Except.ok (d.take (d.length - d.getLastD 0))) := by
  unfold unpadPKCS7
  by_cases h0 : d.length = 0
  · simp [h0]
  · rw [if_neg h0]
    by_cases hm : d.length % blockSize ≠ 0
    · rw [if_pos hm]
      simp [h0, hm]
    · rw [if_neg hm]
      by_cases hv : validPadRun d (d.getLastD 0) = true
      · rw [if_pos hv]
        rw [validPadRun_iff] at hv
        constructor
        · constructor
          · rintro ⟨e, he⟩
            exact absurd he (by simp)
          · intro hc
            rcases hc with hc | hc | hc
            · exact absurd hc h0
            · exact absurd hc hm
            · exact absurd hv hc
        · intro _ _ _ _
          rfl
      · rw [if_neg hv]
        rw [validPadRun_iff] at hv
        constructor
        · constructor
          · intro _
            exact Or.inr (Or.inr hv)
          · intro _
            exact ⟨_, rfl⟩
        · intro _ _ hle hrep
          exact absurd ⟨hle, hrep⟩ hv

/-- Witness for C8 at concrete inputs from TestPKCS7: the padded buffer
1 2 2 2 unpads to 1 2, and the buffer 1 2 3 4 whose trailing run is invalid
is rejected. -/
theorem unpadPKCS7_characterization_witness :
    (([1, 2, 2, 2] : List Nat).length ≠ 0 ∧
      ([1, 2, 2, 2] : List Nat).length % 4 = 0) ∧
    unpadPKCS7 [1, 2, 2, 2] 4 = Except.ok [1, 2] ∧
    (∃ e, unpadPKCS7 [1, 2, 3, 4] 4 = Except.error e) :=
  ⟨⟨by decide, by decide⟩,
    (unpadPKCS7_characterization [1, 2, 2, 2] 4).2 (by decide) (by decide)
      (by decide) (by decide),
    (unpadPKCS7_characterization [1, 2, 3, 4] 4).1.mpr
      (Or.inr (Or.inr (by decide)))⟩

theorem padPKCS7_testVectors :
    padPKCS7 [] 4 = [4, 4, 4, 4] ∧
    padPKCS7 [1, 2] 4 = [1, 2, 2, 2] ∧
    padPKCS7 [1, 2, 3] 4 = [1, 2, 3, 1] ∧
    padPKCS7 [1, 2, 3, 4] 4 = [1, 2, 3, 4, 4, 4, 4, 4] ∧
    padPKCS7 [1, 2, 3, 4, 5] 4 = [1, 2, 3, 4, 5, 3, 3, 3] ∧
    padPKCS7 [1, 2, 3, 4, 1, 1, 1] 4 = [1, 2, 3, 4, 1, 1, 1, 1] := by
  refine ⟨rfl, rfl, rfl, rfl, rfl, rfl⟩

theorem unpadPKCS7_testVectors :
    unpadPKCS7 [4, 4, 4, 4] 4 = Except.ok [] ∧
    unpadPKCS7 [1, 2, 2, 2] 4 = Except.ok [1, 2] ∧
    unpadPKCS7 [1, 2, 3, 1] 4 = Except.ok [1, 2, 3] ∧
    unpadPKCS7 [1, 2, 3, 4, 4, 4, 4, 4] 4 = Except.ok [1, 2, 3, 4] ∧
    unpadPKCS7 [1, 2, 3, 4, 5, 3, 3, 3] 4 = Except.ok [1, 2, 3, 4, 5] ∧
    unpadPKCS7 [1, 2, 3, 4, 1, 1, 1, 1] 4 = Except.ok [1, 2, 3, 4, 1, 1, 1] ∧
    (unpadPKCS7 [] 4).isOk = false ∧
    (unpadPKCS7 [1, 2, 3, 4] 4).isOk = false ∧
    (unpadPKCS7 [1, 2, 3, 3] 4).isOk = false ∧
    (unpadPKCS7 [1, 2, 3, 4, 1, 1, 1, 2] 4).isOk = false := by
  refine ⟨rfl, rfl, rfl, rfl, rfl, rfl, rfl, rfl, rfl, rfl⟩

theorem xorBytes_length (a b : List Nat) :
    (xorBytes a b).length = min a.length b.length := by
  simp [xorBytes]

theorem xorBytes_cancel :
    ∀ (a b : List Nat), a.length = b.length → xorBytes a (xorBytes a b) = b := by
  intro a
  induction a with
  | nil =>
    intro b h
    have : b = [] := List.eq_nil_of_length_eq_zero (by simpa using h.symm)
    subst this
    rfl
  | cons x xs ih =>
    intro b h
    cases b with
    | nil => simp at h
    | cons y ys =>
      simp only [List.length_cons] at h
      simp only [xorBytes, List.zipWith_cons_cons]
      have hxy : Nat.xor x (Nat.xor x y) = y := Nat.xor_cancel_left x y
      rw [hxy]
      have := ih ys (by omega)
      simp only [xorBytes] at this
      rw [this]

theorem chunks16Aux_flatten :
    ∀ (fuel : Nat) (l : List Nat), l.length ≤ fuel →
      (chunks16Aux fuel l).flatten = l := by
  intro fuel
  induction fuel with
  | zero =>
    intro l h
    have : l = [] := List.eq_nil_of_length_eq_zero (Nat.le_zero.mp h)
    subst this
    rfl
  | succ f ih =>
    intro l h
    cases l with
    | nil => rfl
    | cons x xs =>
      show (List.take 16 (x :: xs) :: chunks16Aux f (List.drop 16 (x :: xs))).flatten =
        x :: xs
      rw [List.flatten_cons,
        ih _ (by simp only [List.length_drop, List.length_cons]; simp only [List.length_cons] at h; omega)]
      exact List.take_append_drop 16 (x :: xs)

theorem chunks16_flatten (l : List Nat) : (chunks16 l).flatten = l :=
  chunks16Aux_flatten l.length l (Nat.le_refl _)

theorem chunks16Aux_blocklen :
    ∀ (fuel : Nat) (l : List Nat), l.length ≤ fuel → l.length % 16 = 0 →
      ∀ b ∈ chunks16Aux fuel l, b.length = 16 := by
  intro fuel
  induction fuel with
  | zero =>
    intro l h _ b hb
    have : l = [] := List.eq_nil_of_length_eq_zero (Nat.le_zero.mp h)
    subst this
    simp [chunks16Aux] at hb
  | succ f ih =>
    intro l h hm b hb
    cases l with
    | nil => simp [chunks16Aux] at hb
    | cons x xs =>
      rw [show chunks16Aux (f + 1) (x :: xs) =
          List.take 16 (x :: xs) :: chunks16Aux f (List.drop 16 (x :: xs)) from rfl] at hb
      simp only [List.length_cons] at h hm
      rcases List.mem_cons.mp hb with hb | hb
      · subst hb
        simp only [List.length_take, List.length_cons]
        omega
      · exact ih (List.drop 16 (x :: xs))
          (by simp only [List.length_drop, List.length_cons]; omega)
          (by simp only [List.length_drop, List.length_cons]; omega) b hb

theorem chunks16_blocklen (l : List Nat) (hm : l.length % 16 = 0) :
    ∀ b ∈ chunks16 l, b.length = 16 :=
  chunks16Aux_blocklen l.length l (Nat.le_refl _) hm

theorem chunks16Aux_fuel :
    ∀ (f1 f2 : Nat) (l : List Nat), l.length ≤ f1 → l.length ≤ f2 →
      chunks16Aux f1 l = chunks16Aux f2 l := by
  intro f1
  induction f1 with
  | zero =>
    intro f2 l h1 _
    have : l = [] := List.eq_nil_of_length_eq_zero (Nat.le_zero.mp h1)
    subst this
    cases f2 <;> rfl
  | succ f ih =>
    intro f2 l h1 h2
    cases l with
    | nil => cases f2 <;> rfl
    | cons x xs =>
      cases f2 with
      | zero => simp at h2
      | succ g =>
        show List.take 16 (x :: xs) :: chunks16Aux f (List.drop 16 (x :: xs)) =
          List.take 16 (x :: xs) :: chunks16Aux g (List.drop 16 (x :: xs))
        simp only [List.length_cons] at h1 h2
        rw [ih g (List.drop 16 (x :: xs))
          (by simp only [List.length_drop, List.length_cons]; omega)
          (by simp only [List.length_drop, List.length_cons]; omega)]

theorem chunks16Aux_succ_cons (f : Nat) (x : Nat) (t : List Nat) :
    chunks16Aux (f + 1) (x :: t) =
      List.take 16 (x :: t) :: chunks16Aux f (List.drop 16 (x :: t)) := rfl

theorem chunks16_of_blocks :
    ∀ cs : List (List Nat), (∀ b ∈ cs, b.length = 16) → chunks16 cs.flatten = cs := by
  intro cs
  induction cs with
  | nil => intro _; rfl
  | cons b bs ih =>
    intro hall
    have hb : b.length = 16 := hall b (by simp)
    have hrest : ∀ c ∈ bs, c.length = 16 := fun c hc => hall c (by simp [hc])
    obtain ⟨x, xs, hx⟩ := List.exists_cons_of_ne_nil
      (show b ≠ [] by intro hnil; rw [hnil] at hb; simp at hb)
    subst hx
    rw [List.flatten_cons]
    show chunks16 ((x :: xs) ++ bs.flatten) = (x :: xs) :: bs
    rw [List.cons_append]
    unfold chunks16
    rw [show (x :: (xs ++ bs.flatten)).length = (xs ++ bs.flatten).length + 1 from rfl,
      chunks16Aux_succ_cons, ← List.cons_append, List.take_left' hb, List.drop_left' hb]
    rw [chunks16Aux_fuel ((xs ++ bs.flatten).length) (bs.flatten.length) bs.flatten
      (by simp) (Nat.le_refl _)]
    rw [show chunks16Aux bs.flatten.length bs.flatten = chunks16 bs.flatten from rfl,
      ih hrest]

theorem cbcEncryptBlocks_blocklen (blockEnc : List Nat → List Nat)
    (hElen : ∀ blk, blk.length = 16 → (blockEnc blk).length = 16) :
    ∀ (blocks : List (List Nat)) (prev : List Nat), prev.length = 16 →
      (∀ b ∈ blocks, b.length = 16) →
      ∀ c ∈ cbcEncryptBlocks blockEnc prev blocks, c.length = 16 := by
  intro blocks
  induction blocks with
  | nil =>
    intro prev _ _ c hc
    simp [cbcEncryptBlocks] at hc
  | cons b bs ih =>
    intro prev hprev hall c hc
    have hb : b.length = 16 := hall b (by simp)
    have hx : (xorBytes prev b).length = 16 := by
      rw [xorBytes_length, hprev, hb]
      rfl
    have hc16 : (blockEnc (xorBytes prev b)).length = 16 := hElen _ hx
    simp only [cbcEncryptBlocks, List.mem_cons] at hc
    rcases hc with hc | hc
    · rw [hc]
      exact hc16
    · exact ih (blockEnc (xorBytes prev b)) hc16
        (fun y hy => hall y (by simp [hy])) c hc

theorem cbcDecrypt_cbcEncrypt (blockEnc blockDec : List Nat → List Nat)
    (hED : ∀ blk, blk.length = 16 → blockDec (blockEnc blk) = blk)
    (hElen : ∀ blk, blk.length = 16 → (blockEnc blk).length = 16) :
    ∀ (blocks : List (List Nat)) (prev : List Nat), prev.length = 16 →
      (∀ b ∈ blocks, b.length = 16) →
      cbcDecryptBlocks blockDec prev (cbcEncryptBlocks blockEnc prev blocks) =
        blocks := by
  intro blocks
  induction blocks with
  | nil => intro prev _ _; rfl
  | cons b bs ih =>
    intro prev hprev hall
    have hb : b.length = 16 := hall b (by simp)
    have hx : (xorBytes prev b).length = 16 := by
      rw [xorBytes_length, hprev, hb]
      rfl
    simp only [cbcEncryptBlocks, cbcDecryptBlocks]
    rw [hED _ hx, xorBytes_cancel prev b (by rw [hprev, hb]),
      ih (blockEnc (xorBytes prev b)) (hElen _ hx)
        (fun y hy => hall y (by simp [hy]))]

theorem getLastD_append_replicate (m : List Nat) (k v : Nat) (hk : 0 < k) :
    (m ++ List.replicate k v).getLastD 0 = v := by
  obtain ⟨j, rfl⟩ : ∃ j, k = j + 1 := ⟨k - 1, by omega⟩
  rw [List.replicate_succ', ← List.append_assoc]
  simp

theorem unpadPKCS7_padPKCS7_16 (m : List Nat) :
    unpadPKCS7 (padPKCS7 m 16) 16 = Except.ok m := by
  have hk : 0 < 16 - m.length % 16 := by omega
  have hlast : (padPKCS7 m 16).getLastD 0 = 16 - m.length % 16 :=
    getLastD_append_replicate m _ _ hk
  have hlen : (padPKCS7 m 16).length = m.length + (16 - m.length % 16) := by
    simp [padPKCS7]
  have hvalid : validPadRun (padPKCS7 m 16) ((padPKCS7 m 16).getLastD 0) = true := by
    rw [hlast, validPadRun_iff]
    constructor
    · omega
    · rw [hlen, show m.length + (16 - m.length % 16) - (16 - m.length % 16) =
          m.length from by omega]
      show (m ++ List.replicate (16 - m.length % 16) (16 - m.length % 16)).drop
          m.length = _
      rw [List.drop_left m _]
  unfold unpadPKCS7
  rw [if_neg (by omega), if_neg (by omega), if_pos hvalid, hlast, hlen,
    show m.length + (16 - m.length % 16) - (16 - m.length % 16) = m.length from
      by omega]
  show Except.ok ((m ++ List.replicate (16 - m.length % 16)
    (16 - m.length % 16)).take m.length) = _
  rw [List.take_left m _]

/-- C3: (spec-modelled) decrypting with the matching key the (iv, ciphertext)
pair produced by CBC encryption of the PKCS#7-padded plaintext returns
exactly the plaintext, for every plaintext (including the empty one) and
every 16-byte IV, the AES-128 block transformation under the fixed 16-byte
key being abstracted as an invertible length-preserving block permutation. -/
theorem aes_cbc_round_trip (blockEnc blockDec : List Nat → List Nat)
    (hED : ∀ blk, blk.length = 16 → blockDec (blockEnc blk) = blk)
    (hElen : ∀ blk, blk.length = 16 → (blockEnc blk).length = 16)
    (iv m : List Nat) (hiv : iv.length = 16) :
    unauthenticatedAESCBCDecrypt blockDec iv
        (unauthenticatedAESCBCEncrypt blockEnc iv m).2 = Except.ok m := by
  unfold unauthenticatedAESCBCEncrypt unauthenticatedAESCBCDecrypt
  have hpadmod : (padPKCS7 m aesBlockSize).length % 16 = 0 := by
    simp only [padPKCS7, aesBlockSize, List.length_append, List.length_replicate]
    omega
  have hblocks := chunks16_blocklen (padPKCS7 m aesBlockSize) hpadmod
  have hciphers := cbcEncryptBlocks_blocklen blockEnc hElen
    (chunks16 (padPKCS7 m aesBlockSize)) iv hiv hblocks
  rw [chunks16_of_blocks _ hciphers,
    cbcDecrypt_cbcEncrypt blockEnc blockDec hED hElen _ iv hiv hblocks,
    chunks16_flatten]
  exact unpadPKCS7_padPKCS7_16 m

/-- Witness for C3 at a concrete run: the identity block permutation, the
all-zero IV and the plaintext bytes of the string hi. -/
theorem aes_cbc_round_trip_witness :
    ((∀ blk : List Nat, blk.length = 16 → id (id blk) = blk) ∧
      (∀ blk : List Nat, blk.length = 16 → (id blk).length = 16) ∧
      (List.replicate 16 0).length = 16) ∧
    unauthenticatedAESCBCDecrypt id (List.replicate 16 0)
        (unauthenticatedAESCBCEncrypt id (List.replicate 16 0) [104, 105]).2 =
      Except.ok [104, 105] :=
  ⟨⟨fun _ _ => rfl, fun _ h => h, by decide⟩,
    aes_cbc_round_trip id id (fun _ _ => rfl) (fun _ h => h)
      (List.replicate 16 0) [104, 105] (by decide)⟩
